import Mathlib

/-!
Verification of the rwcarlsen/optim core: the serial and caching evaluators,
the mesh-projection hierarchy (Infinite grid snapping, Bounded clamping), the
particle-swarm bookkeeping (Particle.Update) and the SimpleMover velocity
update.  Go float64 values are modelled as exact rationals (ℚ) except where
the code takes square roots (the mover's Speed), which is modelled over ℝ.
-/

namespace OptimSpec

/-- Mirror of optim.Point: an ordered coordinate vector plus a scalar value.
The Go zero value Point{} has Pos = nil, Val = 0, modelled as ⟨[], 0⟩. -/
structure Point where
  pos : List ℚ
  val : ℚ
deriving DecidableEq, Repr

/-- An objective function: coordinates to (value, optional error), mirroring
Objectiver.Objective(v []float64) (float64, error).  Errors are modelled as
natural-number codes; none is Go nil. -/
abbrev Obj := List ℚ → ℚ × Option Nat

/-- Output of SerialEvaler.Eval, instrumented with ncalls = the number of
times obj.Objective was invoked (models the spec's call-counting evaluator). -/
structure SEvalOut where
  results : List Point
  err : Option Nat
  ncalls : Nat
deriving DecidableEq, Repr

/-- Mirror of SerialEvaler.Eval (src/unnamed/part_001 lines 80-90).  Go
preallocates `results = make([]Point, len(points))` and on an error with
ContinueOnErr disabled returns that full-length slice: the already-evaluated
prefix, the failed point (Pos copied, Val set), and zero-value Point
placeholders for the rest.  When the loop completes it returns `results, nil`
-- the literal nil, so errors seen with ContinueOnErr enabled are dropped. -/
def serialEval (cont : Bool) (obj : Obj) : List Point → SEvalOut
  | [] => ⟨[], none, 0⟩
  | p :: rest =>
    let r := obj p.pos
    match r.2, cont with
    | some e, false =>
        ⟨⟨p.pos, r.1⟩ :: List.replicate rest.length ⟨[], 0⟩, some e, 1⟩
    | _, _ =>
        let o := serialEval cont obj rest
        ⟨⟨p.pos, r.1⟩ :: o.results, o.err, o.ncalls + 1⟩

/-- Concrete objective for the abort scenario: fails on coordinate vector [2]
with error code 7 and value 99, succeeds elsewhere with the coordinate sum. -/
def objC1 : Obj := fun l => if l = [2] then (99, some 7) else (l.sum, none)

/-- Concrete objective failing on both [2] (error code 2) and [3] (error
code 3), succeeding on everything else. -/
def objC2 : Obj := fun l =>
  if l = [2] then (5, some 2) else if l = [3] then (5, some 3) else (5, none)

/-- The three-point batch used in the serial-evaluator scenarios. -/
def ptsABC : List Point := [⟨[1], 0⟩, ⟨[2], 0⟩, ⟨[3], 0⟩]

/-- C1: the serial evaluator without continue-on-error, fed 3 points with the
second failing, returns a slice of length 3: the evaluated first point, the
failed second point, and a zero-value placeholder for the unevaluated third
point, together with the propagated error, after 2 objective calls. -/
theorem c1_serial_abort_returns_placeholders :
    serialEval false objC1 ptsABC =
      ⟨[⟨[1], 1⟩, ⟨[2], 99⟩, ⟨[], 0⟩], some 7, 2⟩ := by
  norm_num [serialEval, objC1, ptsABC]

/-- C2 counterexample: with continue-on-error enabled and the 2nd and 3rd of
3 evaluations failing, the returned error is nil (none), not the last
failure some 3; all 3 points are evaluated. -/
theorem c2_error_swallowed_counterexample :
    (serialEval true objC2 ptsABC).results.length = 3 ∧
    (objC2 [2]).2 = some 2 ∧
    (objC2 [3]).2 = some 3 ∧
    (serialEval true objC2 ptsABC).err = none := by
  norm_num [serialEval, objC2, ptsABC]

/-- C2 (amended): with continue-on-error enabled, every input point is
evaluated in order (one result per input point, coordinates preserved and
values from the objective), the number of objective calls equals the batch
size, and the returned error is always nil -- failures are silently
swallowed rather than reported. -/
theorem c2_continueOnErr_all_evaluated_err_none (obj : Obj) (points : List Point) :
    (serialEval true obj points).results =
      points.map (fun p => ⟨p.pos, (obj p.pos).1⟩) ∧
    (serialEval true obj points).err = none ∧
    (serialEval true obj points).ncalls = points.length := by
  induction points with
  | nil => exact ⟨rfl, rfl, rfl⟩
  | cons p rest ih =>
    cases hr : (obj p.pos).2 <;>
      simp [serialEval, hr, ih.1, ih.2.1, ih.2.2]

/-- Integer part of a rational, rounded toward zero, mirroring the integer
part returned by Go's math.Modf. -/
def ratTrunc (x : ℚ) : ℤ := if 0 ≤ x then ⌊x⌋ else ⌈x⌉

/-- Per-coordinate grid snap of Infinite.Nearest (src/mesh/mesh.go lines
96-104): n, rem := math.Modf(x / step); if rem/step > 0.5 then n++;
result n * step.  Note the condition divides the fractional part of
x/step by step a second time. -/
def snapCoord (step x : ℚ) : ℚ :=
  let q := x / step
  let n := ratTrunc q
  let rem := q - (n : ℚ)
  let n' := if 1/2 < rem / step then n + 1 else n
  (n' : ℚ) * step

/-- Modelled from claim C3's wording: x maps to (q + c) * step where q is the
integer part of x/step and c is 1 exactly when the remainder of x after
removing q whole steps (that is, x - q * step) exceeds half the step size. -/
def snapCoordHalfUp (step x : ℚ) : ℚ :=
  let q := ratTrunc (x / step)
  let c : ℤ := if step / 2 < x - (q : ℚ) * step then 1 else 0
  ((q + c : ℤ) : ℚ) * step

/-- Application of the (lazily computed) inverse basis: identity when no
basis is configured, otherwise multiplication by the cached inverter. -/
def applyInv {d : Nat} (bp : Option (Matrix (Fin d) (Fin d) ℚ × Matrix (Fin d) (Fin d) ℚ))
    (v : Fin d → ℚ) : Fin d → ℚ :=
  match bp with
  | none => v
  | some M => M.2.mulVec v

/-- Application of the basis itself on the way back to standard space. -/
def applyFwd {d : Nat} (bp : Option (Matrix (Fin d) (Fin d) ℚ × Matrix (Fin d) (Fin d) ℚ))
    (v : Fin d → ℚ) : Fin d → ℚ :=
  match bp with
  | none => v
  | some M => M.1.mulVec v

/-- Mirror of Infinite.Nearest (src/mesh/mesh.go lines 66-115) on a mesh
whose origin has been fixed at dimension d (the lazy zero-origin setup is the
special case center = 0); bp carries the basis together with its cached
inverter (the code inverts Basis once, panicking if singular), bp = none is
the identity-basis case.  If step is 0 the input is returned unchanged;
otherwise the point is translated by the origin, rotated by the inverter,
snapped per coordinate, rotated back and translated back. -/
def infNearest {d : Nat} (center : Fin d → ℚ)
    (bp : Option (Matrix (Fin d) (Fin d) ℚ × Matrix (Fin d) (Fin d) ℚ))
    (step : ℚ) (p : Fin d → ℚ) : Fin d → ℚ :=
  if step = 0 then p
  else fun i =>
    applyFwd bp (fun j => snapCoord step (applyInv bp (fun k => p k - center k) j)) i
      + center i

/-- Mirror of Bounded.Nearest (src/mesh/mesh.go lines 141-149): clamp each
coordinate into [lower, upper] (max with lower, then min with upper) and
delegate to the wrapped mesh. -/
def boundedNearest {d : Nat} (lower upper : Fin d → ℚ)
    (inner : (Fin d → ℚ) → Fin d → ℚ) (p : Fin d → ℚ) : Fin d → ℚ :=
  inner (fun i => min (upper i) (max (lower i) (p i)))

/-- C3: at step 2 the code's double division makes the rounding condition
0.75/2 > 0.5 false, so local coordinate 1.5 snaps down to 0, while the
claim's half-up rule (remainder 1.5 exceeds step/2 = 1) gives grid point 2 --
which is also the nearest grid multiple the code's own doc comment promises.
-/
theorem c3_rounding_divergence :
    infNearest (fun _ : Fin 1 => 0) none 2 (fun _ => 3/2) ⟨0, Nat.zero_lt_one⟩ = 0 ∧
    snapCoordHalfUp 2 (3/2) = 2 ∧
    snapCoord 2 (3/2) = 0 := by
  refine ⟨?_, ?_, ?_⟩ <;>
    norm_num [infNearest, applyFwd, applyInv, snapCoord, snapCoordHalfUp, ratTrunc]

/-- C7: a bounded mesh around a step-2 grid with lower = upper = 1.9 snaps
the in-bounds point 1.9 to 0, which lies strictly below
lower - step/2 = 0.9, violating the claimed containment interval. -/
theorem c7_bounded_containment_violated :
    boundedNearest (fun _ : Fin 1 => 19/10) (fun _ => 19/10)
        (infNearest (fun _ => 0) none 2) (fun _ => 19/10) ⟨0, Nat.zero_lt_one⟩ = 0 ∧
    (0 : ℚ) < 19/10 - 2/2 := by
  constructor
  · norm_num [boundedNearest, infNearest, applyFwd, applyInv, snapCoord, ratTrunc]
  · norm_num

theorem snapCoord_intMul (step : ℚ) (hs : step ≠ 0) (n : ℤ) :
    snapCoord step ((n : ℚ) * step) = (n : ℚ) * step := by
  have ht : ratTrunc (n : ℚ) = n := by
    unfold ratTrunc
    split <;> simp
  unfold snapCoord
  rw [mul_div_assoc, div_self hs, mul_one]
  simp only [ht, sub_self, zero_div]
  norm_num

theorem snapCoord_snapCoord (step x : ℚ) (hs : step ≠ 0) :
    snapCoord step (snapCoord step x) = snapCoord step x := by
  obtain ⟨n, hn⟩ : ∃ n : ℤ, snapCoord step x = (n : ℚ) * step := by
    unfold snapCoord
    exact ⟨_, rfl⟩
  rw [hn, snapCoord_intMul step hs n]

theorem applyInv_applyFwd {d : Nat}
    (bp : Option (Matrix (Fin d) (Fin d) ℚ × Matrix (Fin d) (Fin d) ℚ))
    (hbp : ∀ B Binv, bp = some (B, Binv) → B * Binv = 1 ∧ Binv * B = 1)
    (v : Fin d → ℚ) : applyInv bp (applyFwd bp v) = v := by
  cases bp with
  | none => rfl
  | some M =>
    obtain ⟨B, Binv⟩ := M
    obtain ⟨h1, h2⟩ := hbp B Binv rfl
    show Binv.mulVec (B.mulVec v) = v
    rw [Matrix.mulVec_mulVec, h2, Matrix.one_mulVec]

/-- C6: Infinite.Nearest with any nonzero step, any origin, and either no
basis or any basis paired with a two-sided inverse (the code inverts the
basis, panicking when singular) is idempotent in exact arithmetic:
snapping an already snapped point returns it unchanged. -/
theorem c6_infNearest_idempotent {d : Nat} (center : Fin d → ℚ)
    (bp : Option (Matrix (Fin d) (Fin d) ℚ × Matrix (Fin d) (Fin d) ℚ))
    (step : ℚ) (hs : step ≠ 0)
    (hbp : ∀ B Binv, bp = some (B, Binv) → B * Binv = 1 ∧ Binv * B = 1)
    (p : Fin d → ℚ) :
    infNearest center bp step (infNearest center bp step p) =
      infNearest center bp step p := by
  unfold infNearest
  rw [if_neg hs, if_neg hs]
  funext i
  have hsub :
      (fun k => (applyFwd bp
          (fun j => snapCoord step (applyInv bp (fun k' => p k' - center k') j)) k
            + center k) - center k) =
        applyFwd bp (fun j => snapCoord step (applyInv bp (fun k' => p k' - center k') j)) := by
    funext k
    rw [add_sub_cancel_right]
  rw [hsub, applyInv_applyFwd bp hbp]
  have hsnap :
      (fun j => snapCoord step
          (snapCoord step (applyInv bp (fun k' => p k' - center k') j))) =
        (fun j => snapCoord step (applyInv bp (fun k' => p k' - center k') j)) := by
    funext j
    rw [snapCoord_snapCoord step _ hs]
  rw [hsnap]

/-- C6 witness: the hypotheses of c6_infNearest_idempotent hold and its
conclusion is obtained at the concrete one-dimensional mesh with origin 0,
no basis, step 1, and point 3/2. -/
theorem c6_infNearest_idempotent_witness :
    (1 : ℚ) ≠ 0 ∧
    infNearest (fun _ : Fin 1 => 0) none 1
        (infNearest (fun _ : Fin 1 => 0) none 1 (fun _ => 3/2)) =
      infNearest (fun _ : Fin 1 => 0) none 1 (fun _ => 3/2) :=
  ⟨one_ne_zero,
   c6_infNearest_idempotent (fun _ : Fin 1 => 0) none 1 one_ne_zero
     (fun _ _ h => Option.noConfusion h) (fun _ => 3/2)⟩

/-- The cache of CacheEvaler: digest-keyed value table.  The sha1 digest of
the coordinate vector is injective up to the accepted collision risk, so it
is modelled by the coordinate vector itself; Go map assignment is modelled
by prepending, with lookup returning the most recent binding. -/
abbrev Cache := List (List ℚ × ℚ)

/-- Map lookup: first (most recently inserted) binding for the key. -/
def cacheLookup (c : Cache) (k : List ℚ) : Option ℚ :=
  match c with
  | [] => none
  | (k', v) :: rest => if k' = k then some v else cacheLookup rest k

/-- The partition pass of CacheEvaler.Eval (src/unnamed/part_001 lines
61-67): points whose digest is cached become results immediately (with the
cached value), the rest are collected, in input order, for the underlying
evaluator.  The cache is only read here; inserts happen after the batch. -/
def cacheSplit (c : Cache) : List Point → List Point × List Point
  | [] => ([], [])
  | p :: rest =>
    let s := cacheSplit c rest
    match cacheLookup c p.pos with
    | some v => (⟨p.pos, v⟩ :: s.1, s.2)
    | none => (s.1, p :: s.2)

/-- Output of CacheEvaler.Eval: results, error, the updated cache, and the
number of objective evaluations performed by the underlying evaluator. -/
structure CEvalOut where
  results : List Point
  err : Option Nat
  cache : Cache
  ncalls : Nat
deriving DecidableEq, Repr

/-- Mirror of CacheEvaler.Eval (src/unnamed/part_001 lines 59-74): split
points into cache hits and misses, run the underlying evaluator on the
misses in one call, insert every returned point into the cache regardless of
the batch error, and return hits followed by fresh results together with the
underlying error. -/
def cacheEval (ev : Obj → List Point → SEvalOut) (obj : Obj) (c : Cache)
    (points : List Point) : CEvalOut :=
  let s := cacheSplit c points
  let o := ev obj s.2
  { results := s.1 ++ o.results
    err := o.err
    cache := o.results.foldl (fun acc q => (q.pos, q.val) :: acc) c
    ncalls := o.ncalls }

/-- C4: through a caching evaluator wrapping the serial evaluator, a point
not yet cached costs exactly one objective evaluation; repeating the
identical coordinate vector in a second Eval call costs zero further
evaluations and is answered entirely from the cache with no error. -/
theorem c4_cache_exactly_once (obj : Obj) (c0 : Cache) (pos : List ℚ) (v1 v2 : ℚ)
    (h : cacheLookup c0 pos = none) :
    (cacheEval (serialEval false) obj c0 [⟨pos, v1⟩]).ncalls = 1 ∧
    (cacheEval (serialEval false) obj c0 [⟨pos, v1⟩]).results.length = 1 ∧
    (cacheEval (serialEval false) obj
        (cacheEval (serialEval false) obj c0 [⟨pos, v1⟩]).cache [⟨pos, v2⟩]).ncalls = 0 ∧
    (cacheEval (serialEval false) obj
        (cacheEval (serialEval false) obj c0 [⟨pos, v1⟩]).cache [⟨pos, v2⟩]).results =
      [⟨pos, (obj pos).1⟩] ∧
    (cacheEval (serialEval false) obj
        (cacheEval (serialEval false) obj c0 [⟨pos, v1⟩]).cache [⟨pos, v2⟩]).err = none := by
  have hser : serialEval false obj [⟨pos, v1⟩] =
      ⟨[⟨pos, (obj pos).1⟩], (obj pos).2, 1⟩ := by
    cases hr : (obj pos).2 <;> simp [serialEval, hr]
  have h1 : cacheEval (serialEval false) obj c0 [⟨pos, v1⟩] =
      ⟨[⟨pos, (obj pos).1⟩], (obj pos).2, (pos, (obj pos).1) :: c0, 1⟩ := by
    simp [cacheEval, cacheSplit, h, hser]
  rw [h1]
  have h2 : cacheEval (serialEval false) obj ((pos, (obj pos).1) :: c0) [⟨pos, v2⟩] =
      ⟨[⟨pos, (obj pos).1⟩], none, (pos, (obj pos).1) :: c0, 0⟩ := by
    simp [cacheEval, cacheSplit, cacheLookup, serialEval]
  rw [h2]
  exact ⟨rfl, rfl, rfl, rfl, rfl⟩

/-- C4 witness: the hypothesis (empty cache) holds and the conclusion of
c4_cache_exactly_once is obtained at pos = [5] with a concrete objective. -/
theorem c4_cache_exactly_once_witness :
    cacheLookup [] [(5 : ℚ)] = none ∧
    (cacheEval (serialEval false) (fun l => (l.sum, none)) [] [⟨[5], 0⟩]).ncalls = 1 ∧
    (cacheEval (serialEval false) (fun l => (l.sum, none))
        (cacheEval (serialEval false) (fun l => (l.sum, none)) [] [⟨[5], 0⟩]).cache
        [⟨[5], 3⟩]).ncalls = 0 :=
  ⟨rfl,
   (c4_cache_exactly_once (fun l => (l.sum, none)) [] [5] 0 3 rfl).1,
   (c4_cache_exactly_once (fun l => (l.sum, none)) [] [5] 0 3 rfl).2.2.1⟩

/-- C9: when the underlying serial evaluator reports an error for a fresh
point, the point's value is inserted into the cache anyway, the batch error
is propagated, and a later Eval of the same coordinate vector is served from
the cache with the stored value, no error, and no further evaluation. -/
theorem c9_cache_despite_error (obj : Obj) (c0 : Cache) (pos : List ℚ)
    (v1 v2 : ℚ) (e : Nat)
    (h : cacheLookup c0 pos = none) (hfail : (obj pos).2 = some e) :
    (cacheEval (serialEval false) obj c0 [⟨pos, v1⟩]).err = some e ∧
    cacheLookup (cacheEval (serialEval false) obj c0 [⟨pos, v1⟩]).cache pos =
      some (obj pos).1 ∧
    (cacheEval (serialEval false) obj
        (cacheEval (serialEval false) obj c0 [⟨pos, v1⟩]).cache [⟨pos, v2⟩]).results =
      [⟨pos, (obj pos).1⟩] ∧
    (cacheEval (serialEval false) obj
        (cacheEval (serialEval false) obj c0 [⟨pos, v1⟩]).cache [⟨pos, v2⟩]).err = none ∧
    (cacheEval (serialEval false) obj
        (cacheEval (serialEval false) obj c0 [⟨pos, v1⟩]).cache [⟨pos, v2⟩]).ncalls = 0 := by
  have hser : serialEval false obj [⟨pos, v1⟩] =
      ⟨[⟨pos, (obj pos).1⟩], some e, 1⟩ := by
    simp [serialEval, hfail]
  have h1 : cacheEval (serialEval false) obj c0 [⟨pos, v1⟩] =
      ⟨[⟨pos, (obj pos).1⟩], some e, (pos, (obj pos).1) :: c0, 1⟩ := by
    simp [cacheEval, cacheSplit, h, hser]
  rw [h1]
  have h2 : cacheEval (serialEval false) obj ((pos, (obj pos).1) :: c0) [⟨pos, v2⟩] =
      ⟨[⟨pos, (obj pos).1⟩], none, (pos, (obj pos).1) :: c0, 0⟩ := by
    simp [cacheEval, cacheSplit, cacheLookup, serialEval]
  rw [h2]
  exact ⟨rfl, by simp [cacheLookup], rfl, rfl, rfl⟩

/-- Concrete always-failing objective for the C9 witness. -/
def objFail : Obj := fun l => (l.sum, some 4)

/-- C9 witness: the hypotheses (empty cache, objective failing on [7] with
error code 4) hold and the conclusion of c9_cache_despite_error is obtained
there. -/
theorem c9_cache_despite_error_witness :
    cacheLookup [] [(7 : ℚ)] = none ∧
    (objFail [7]).2 = some 4 ∧
    (cacheEval (serialEval false) objFail [] [⟨[7], 0⟩]).err = some 4 ∧
    cacheLookup (cacheEval (serialEval false) objFail [] [⟨[7], 0⟩]).cache [7] =
      some (objFail [7]).1 :=
  ⟨rfl, rfl,
   (c9_cache_despite_error objFail [] [7] 0 1 4 rfl rfl).1,
   (c9_cache_despite_error objFail [] [7] 0 1 4 rfl rfl).2.1⟩

/-- Mirror of pswarm.Particle (src/unnamed/part_002 lines 11-16): stable id,
embedded current Point (pos, val), velocity vector, and personal best. -/
structure Particle where
  id : Nat
  pos : List ℚ
  val : ℚ
  vel : List ℚ
  best : Point
deriving DecidableEq, Repr

/-- Mirror of Particle.Update (src/unnamed/part_002 lines 18-23): set the
current value to the new point's value; if it is strictly better than the
personal best, or the personal best still has an empty coordinate vector
(Best.Len() == 0), the personal best becomes the new point. -/
def Particle.update (p : Particle) (newp : Point) : Particle :=
  let val' := newp.val
  if val' < p.best.val ∨ p.best.pos.length = 0 then
    { p with val := val', best := newp }
  else
    { p with val := val' }

/-- C8: after Update the personal-best value never exceeds the current
value; and for a particle whose personal best has a nonempty coordinate
vector (as NewPopulation initializes it), each Update leaves the
personal-best value non-increasing and -- as long as the evaluated points
have nonempty coordinates -- keeps the best's coordinate vector nonempty, so
the personal-best value is non-increasing across any sequence of updates. -/
theorem c8_particle_best_monotone (p : Particle) (newp : Point) :
    ((p.update newp).best.val ≤ (p.update newp).val) ∧
    (p.best.pos ≠ [] → (p.update newp).best.val ≤ p.best.val) ∧
    (p.best.pos ≠ [] → newp.pos ≠ [] → (p.update newp).best.pos ≠ []) := by
  unfold Particle.update
  by_cases h : newp.val < p.best.val ∨ p.best.pos.length = 0
  · rw [if_pos h]
    refine ⟨le_refl _, fun hne => ?_, fun _ hne => hne⟩
    rcases h with h | h
    · exact le_of_lt h
    · exact absurd (List.length_eq_zero.mp h) hne
  · rw [if_neg h]
    push_neg at h
    exact ⟨h.1, fun _ => le_refl _, fun hne _ => hne⟩

/-- C8 witness: the nonemptiness hypotheses hold and the conclusion of
c8_particle_best_monotone is obtained at a concrete particle (best value 10)
updated with a better point (value 3). -/
theorem c8_particle_best_monotone_witness :
    ((⟨[1], 10⟩ : Point).pos ≠ []) ∧ ((⟨[2], 3⟩ : Point).pos ≠ []) ∧
    ((Particle.update ⟨0, [1], 5, [0], ⟨[1], 10⟩⟩ ⟨[2], 3⟩).best.val ≤
        (Particle.update ⟨0, [1], 5, [0], ⟨[1], 10⟩⟩ ⟨[2], 3⟩).val) ∧
    (Particle.update ⟨0, [1], 5, [0], ⟨[1], 10⟩⟩ ⟨[2], 3⟩).best.val ≤
        (⟨[1], 10⟩ : Point).val ∧
    (Particle.update ⟨0, [1], 5, [0], ⟨[1], 10⟩⟩ ⟨[2], 3⟩).best.pos ≠ [] :=
  ⟨List.cons_ne_nil _ _, List.cons_ne_nil _ _,
   (c8_particle_best_monotone ⟨0, [1], 5, [0], ⟨[1], 10⟩⟩ ⟨[2], 3⟩).1,
   (c8_particle_best_monotone ⟨0, [1], 5, [0], ⟨[1], 10⟩⟩ ⟨[2], 3⟩).2.1
     (List.cons_ne_nil _ _),
   (c8_particle_best_monotone ⟨0, [1], 5, [0], ⟨[1], 10⟩⟩ ⟨[2], 3⟩).2.2
     (List.cons_ne_nil _ _) (List.cons_ne_nil _ _)⟩

/-- The evaluator implementations an Iterator can hold: the serial
evaluator (with its continue-on-error flag) or the caching decorator around
another evaluator. -/
inductive EvalerSpec where
  | serial (continueOnErr : Bool)
  | cacheOf (inner : EvalerSpec)
deriving DecidableEq, Repr

/-- Configuration data of pswarm.SimpleMover (cognition, social, vmax). -/
structure SimpleMoverCfg where
  cognition : ℚ
  social : ℚ
  vmax : ℚ
deriving DecidableEq, Repr

/-- Mirror of pswarm.Iterator's fields: population, evaluator, mover. -/
structure IteratorS where
  pop : List Particle
  evaler : EvalerSpec
  mover : SimpleMoverCfg
deriving Repr

/-- DefaultCognition = 0.5 (src/unnamed/part_002 line 116). -/
def defaultCognition : ℚ := 1/2

/-- DefaultSocial = 0.5 (src/unnamed/part_002 line 117). -/
def defaultSocial : ℚ := 1/2

/-- Mirror of pswarm.NewIterator (src/unnamed/part_002 lines 75-87): the nil
checks default e to a serial evaluator and m to a default SimpleMover, but
the returned Iterator is built with the literal optim.SerialEvaler{} as its
Evaler field, so the defaulted e is never used. -/
def newIterator (pop : List Particle) (e : Option EvalerSpec)
    (m : Option SimpleMoverCfg) : IteratorS :=
  let _e := e.getD (EvalerSpec.serial false)
  let m' := m.getD ⟨defaultCognition, defaultSocial, 0⟩
  { pop := pop, evaler := EvalerSpec.serial false, mover := m' }

/-- C10: the iterator returned by NewIterator always carries a fresh serial
evaluator (zero-value SerialEvaler, continue-on-error disabled) regardless
of the evaluator argument; in particular passing a caching evaluator yields
the same evaluator field as passing nil. -/
theorem c10_newIterator_ignores_evaler (pop : List Particle)
    (e : Option EvalerSpec) (m : Option SimpleMoverCfg) :
    (newIterator pop e m).evaler = EvalerSpec.serial false ∧
    (newIterator pop (some (EvalerSpec.cacheOf (EvalerSpec.serial false))) m).evaler =
      (newIterator pop none m).evaler :=
  ⟨rfl, rfl⟩

/-- Mirror of pswarm.Speed (src/unnamed/part_002 lines 173-179): the
Euclidean norm, sqrt of the sum of squared components.  The mover is
modelled over ℝ because of this square root. -/
noncomputable def speed (v : List ℝ) : ℝ := Real.sqrt ((v.map fun x => x * x).sum)

/-- The clamp check inside SimpleMover.Move's velocity loop (src/unnamed/
part_002 lines 156-160): if mv.Vmax > 0 and the current speed exceeds
mv.Vmax, every component is scaled by vmaxLoc / s where s is the current
speed and vmaxLoc is the per-particle cap computed before the loop. -/
noncomputable def clampVel (vmaxCfg vmaxLoc : ℝ) (v : List ℝ) : List ℝ :=
  if 0 < vmaxCfg ∧ vmaxCfg < speed v then v.map fun x => x * (vmaxLoc / speed v)
  else v

/-- One dimension of the velocity update (src/unnamed/part_002 lines
152-155): new v_i = inertia * current v_i + cognition * w1 * (best_i -
pos_i) + social * w2 * (best_i - pos_i); w1 and w2 are the two random draws
made once per particle, inertia is the value returned by InertiaFn. -/
noncomputable def velStep (inertia cog soc w1 w2 : ℝ) (pos best : List ℝ)
    (v : List ℝ) (i : Nat) : List ℝ :=
  v.set i (inertia * v.getD i 0 + cog * w1 * (best.getD i 0 - pos.getD i 0)
    + soc * w2 * (best.getD i 0 - pos.getD i 0))

/-- The per-particle velocity update of SimpleMover.Move (src/unnamed/
part_002 lines 142-162): the cap vmaxLoc is mv.Vmax, or 1.5x the current
speed when mv.Vmax == 0; then for each dimension in order the velocity
component is updated and, still inside the loop, the clamp check runs on the
partially updated vector. -/
noncomputable def moveVel (inertia cog soc w1 w2 vmaxCfg : ℝ)
    (pos best v0 : List ℝ) : List ℝ :=
  let vmaxLoc := if vmaxCfg = 0 then 3/2 * speed v0 else vmaxCfg
  (List.range v0.length).foldl
    (fun v i => clampVel vmaxCfg vmaxLoc (velStep inertia cog soc w1 w2 pos best v i))
    v0

/-- Modelled from claim C5's wording: compute the entire new velocity vector
first, and only then, when a fixed cap is configured and the resulting speed
exceeds it, rescale the whole vector to have norm equal to the cap. -/
noncomputable def moveVelSpecC5 (inertia cog soc w1 w2 vmaxCfg : ℝ)
    (pos best v0 : List ℝ) : List ℝ :=
  let w := (List.range v0.length).foldl
    (fun v i => velStep inertia cog soc w1 w2 pos best v i) v0
  if 0 < vmaxCfg ∧ vmaxCfg < speed w then w.map fun x => x * (vmaxCfg / speed w)
  else w

theorem sqrt_eq_of_sq (a b : ℝ) (hb : 0 ≤ b) (h : b * b = a) :
    Real.sqrt a = b := by
  rw [← h]
  exact Real.sqrt_mul_self hb

theorem sumSq_map_mul (c : ℝ) (w : List ℝ) :
    ((w.map fun x => x * c).map fun x => x * x).sum =
      c * c * ((w.map fun x => x * x).sum) := by
  induction w with
  | nil => simp
  | cons a l ih =>
    simp only [List.map_cons, List.sum_cons, ih]
    ring

theorem speed_map_mul (c : ℝ) (w : List ℝ) :
    speed (w.map fun x => x * c) = |c| * speed w := by
  unfold speed
  rw [sumSq_map_mul, Real.sqrt_mul (mul_self_nonneg c), Real.sqrt_mul_self_eq_abs]

theorem speed_rescale_eq (c : ℝ) (w : List ℝ) (hc : 0 < c) (hlt : c < speed w) :
    speed (w.map fun x => x * (c / speed w)) = c := by
  have hspos : 0 < speed w := lt_trans hc hlt
  rw [speed_map_mul, abs_of_pos (div_pos hc hspos),
    div_mul_cancel₀ c (ne_of_gt hspos)]

theorem speed_clampVel_le (c : ℝ) (hc : 0 < c) (w : List ℝ) :
    speed (clampVel c c w) ≤ c := by
  unfold clampVel
  by_cases h : 0 < c ∧ c < speed w
  · rw [if_pos h, speed_rescale_eq c w hc h.2]
  · rw [if_neg h]
    rcases not_and_or.mp h with h1 | h2
    · exact absurd hc h1
    · exact le_of_not_lt h2

theorem foldl_fn_congr {α β : Type} (f g : α → β → α) (h : ∀ a b, f a b = g a b) :
    ∀ (l : List β) (init : α), l.foldl f init = l.foldl g init := by
  intro l
  induction l with
  | nil => intro init; rfl
  | cons b t ih => intro init; rw [List.foldl_cons, List.foldl_cons, h, ih]

theorem speed_three_four : speed [(3 : ℝ), 4] = 5 := by
  unfold speed
  simp only [List.map_cons, List.map_nil, List.sum_cons, List.sum_nil]
  exact sqrt_eq_of_sq _ 5 (by norm_num) (by norm_num)

theorem speed_three_zero : speed [(3 : ℝ), 0] = 3 := by
  unfold speed
  simp only [List.map_cons, List.map_nil, List.sum_cons, List.sum_nil]
  exact sqrt_eq_of_sq _ 3 (by norm_num) (by norm_num)

theorem speed_threeFifths_zero : speed [(3 : ℝ)/5, 0] = 3/5 := by
  unfold speed
  simp only [List.map_cons, List.map_nil, List.sum_cons, List.sum_nil]
  exact sqrt_eq_of_sq _ (3/5) (by norm_num) (by norm_num)

/-- C5 counterexample: with inertia 0, cognition 1, social 0, draws w1 = 1,
w2 = 0, fixed cap Vmax = 1, position (0,0), global best (3,0) and old
velocity (0,4), the code's mid-loop clamp produces velocity (3/5, 0), while
the claimed compute-all-dimensions-then-clamp semantics produces (1, 0); the
first components differ. -/
theorem c5_clamp_timing_counterexample :
    moveVel 0 1 0 1 0 1 [0, 0] [3, 0] [0, 4] = [3/5, 0] ∧
    moveVelSpecC5 0 1 0 1 0 1 [0, 0] [3, 0] [0, 4] = [1, 0] ∧
    (3 : ℝ)/5 < 1 := by
  have hrange : List.range ([(0 : ℝ), 4]).length = [0, 1] := by
    simp [List.range_succ]
  have hstep0 : velStep 0 1 0 1 0 [0, 0] [3, 0] [(0 : ℝ), 4] 0 = [3, 4] := by
    norm_num [velStep]
  have hclamp1 : clampVel 1 1 [(3 : ℝ), 4] = [3/5, 4/5] := by
    unfold clampVel
    rw [speed_three_four, if_pos (by norm_num : (0:ℝ) < 1 ∧ (1:ℝ) < 5)]
    norm_num
  have hstep1 : velStep 0 1 0 1 0 [0, 0] [3, 0] [(3 : ℝ)/5, 4/5] 1 = [3/5, 0] := by
    norm_num [velStep]
  have hclamp2 : clampVel 1 1 [(3 : ℝ)/5, 0] = [3/5, 0] := by
    unfold clampVel
    rw [speed_threeFifths_zero, if_neg (by norm_num)]
  have hstep1b : velStep 0 1 0 1 0 [0, 0] [3, 0] [(3 : ℝ), 4] 1 = [3, 0] := by
    norm_num [velStep]
  refine ⟨?_, ?_, by norm_num⟩
  · simp only [moveVel]
    rw [show (if (1 : ℝ) = 0 then 3/2 * speed [0, 4] else 1) = 1 from
        if_neg one_ne_zero]
    rw [hrange, List.foldl_cons, List.foldl_cons, List.foldl_nil]
    rw [hstep0, hclamp1, hstep1, hclamp2]
  · simp only [moveVelSpecC5]
    rw [hrange, List.foldl_cons, List.foldl_cons, List.foldl_nil]
    rw [hstep0, hstep1b, speed_three_zero,
      if_pos (by norm_num : (0:ℝ) < 1 ∧ (1:ℝ) < 3)]
    norm_num

/-- C5 (amended): in the code's per-particle update the clamp check runs
after each dimension's velocity update, not once at the end; it can fire
only when a fixed cap Vmax > 0 is configured -- with the dynamic
1.5x-current-speed cap (Vmax = 0, or any non-positive Vmax) no rescaling
ever happens and the update is the plain per-dimension rule -- and each
application rescales the current vector to Euclidean norm exactly the cap,
so with a fixed positive cap the final speed never exceeds it. -/
theorem c5_clamp_only_with_fixed_cap (inertia cog soc w1 w2 vmaxCfg : ℝ)
    (pos best v0 : List ℝ) :
    (vmaxCfg ≤ 0 → moveVel inertia cog soc w1 w2 vmaxCfg pos best v0 =
        (List.range v0.length).foldl
          (fun v i => velStep inertia cog soc w1 w2 pos best v i) v0) ∧
    (0 < vmaxCfg → speed (moveVel inertia cog soc w1 w2 vmaxCfg pos best v0) ≤ vmaxCfg) ∧
    (∀ w : List ℝ, 0 < vmaxCfg → vmaxCfg < speed w →
        speed (w.map fun x => x * (vmaxCfg / speed w)) = vmaxCfg) := by
  refine ⟨?_, ?_, fun w hc hlt => speed_rescale_eq vmaxCfg w hc hlt⟩
  · intro hle
    simp only [moveVel]
    apply foldl_fn_congr
    intro a b
    unfold clampVel
    rw [if_neg]
    rintro ⟨h1, _⟩
    exact absurd hle (not_le_of_lt h1)
  · intro hc
    simp only [moveVel]
    rw [show (if vmaxCfg = 0 then 3/2 * speed v0 else vmaxCfg) = vmaxCfg from
        if_neg (ne_of_gt hc)]
    cases hv : v0.length with
    | zero =>
      simp only [List.range_zero, List.foldl_nil]
      rw [List.length_eq_zero.mp hv]
      have hnil : speed ([] : List ℝ) = 0 := by
        unfold speed
        simp
      rw [hnil]
      exact le_of_lt hc
    | succ n =>
      rw [List.range_succ, List.foldl_append, List.foldl_cons, List.foldl_nil]
      exact speed_clampVel_le vmaxCfg hc _

/-- C5 witness: the hypotheses of c5_clamp_only_with_fixed_cap hold and its
three conclusions are obtained at concrete inputs: Vmax = 0 (dynamic cap, no
clamp), Vmax = 1 with the counterexample vectors (final speed at most 1),
and the vector (3,4) with cap 1 (rescaled to norm exactly 1). -/
theorem c5_clamp_only_with_fixed_cap_witness :
    ((0 : ℝ) ≤ 0 ∧ moveVel 0 1 0 1 0 0 [0, 0] [3, 0] [0, 4] =
        (List.range ([(0 : ℝ), 4]).length).foldl
          (fun v i => velStep 0 1 0 1 0 [0, 0] [3, 0] v i) [0, 4]) ∧
    ((0 : ℝ) < 1 ∧ speed (moveVel 0 1 0 1 0 1 [0, 0] [3, 0] [0, 4]) ≤ 1) ∧
    ((0 : ℝ) < 1 ∧ (1 : ℝ) < speed [3, 4] ∧
      speed ([(3 : ℝ), 4].map fun x => x * (1 / speed [3, 4])) = 1) :=
  ⟨⟨le_refl 0,
    (c5_clamp_only_with_fixed_cap 0 1 0 1 0 0 [0, 0] [3, 0] [0, 4]).1 (le_refl 0)⟩,
   ⟨by norm_num,
    (c5_clamp_only_with_fixed_cap 0 1 0 1 0 1 [0, 0] [3, 0] [0, 4]).2.1 (by norm_num)⟩,
   ⟨by norm_num, by rw [speed_three_four]; norm_num,
    (c5_clamp_only_with_fixed_cap 0 1 0 1 0 1 [0, 0] [3, 0] [0, 4]).2.2 [3, 4]
      (by norm_num) (by rw [speed_three_four]; norm_num)⟩⟩

end OptimSpec
